import Mathlib

set_option maxRecDepth 4000

/-
Verification of the CloudSense tropical-cloud-cluster (TCC) pipeline.

Shallow embedding of the core per-frame inference pipeline and the
multi-frame tracker:

* `src/backend/modules/preprocessing.py`  (BT normalisation)
* `src/backend/inference_engine.py`       (post-processing, NetCDF attributes,
                                           per-file error policy)
* `src/backend/modules/pipeline.py`       (per-frame / per-directory policy)
* `src/backend/modules/clustering.py`     (geographic separation constraint)
* `src/backend/modules/tracking.py`       (Kalman tracks, Hungarian assignment)

Machine floats are embedded as exact rationals (`ℚ`) where the computation is
rational, and as real numbers (`ℝ`) where it involves transcendental
functions (the haversine distance).  Python dictionaries are embedded as
structures with `Option`-valued fields for keys that may be absent; in-place
mutation of the caller's dictionaries is embedded by returning the updated
store together with the list positions (aliases) of the returned objects.
-/

namespace CloudSense

/-! ### Module 1: preprocessing (src/backend/modules/preprocessing.py)

`normalize_bt` linearly maps Kelvin values to [0,1] using the fixed physical
bounds 180 K and 320 K and clips the result, elementwise over the array. -/

/-- Physical constant `BT_MIN = 180.0` from preprocessing.py. -/
def BT_MIN : ℚ := 180

/-- Physical constant `BT_MAX = 320.0` from preprocessing.py. -/
def BT_MAX : ℚ := 320

/-- Elementwise `np.clip(v, lo, hi)`. -/
def npClip (lo hi v : ℚ) : ℚ := min (max v lo) hi

/-- Embedding of `normalize_bt(bt_array, min_bt, max_bt)`:
`np.clip((bt_array - min_bt) / (max_bt - min_bt), 0.0, 1.0)`,
elementwise over the flattened array. -/
def normalize_bt_with (min_bt max_bt : ℚ) (bt_array : List ℚ) : List ℚ :=
  bt_array.map (fun v => npClip 0 1 ((v - min_bt) / (max_bt - min_bt)))

/-- `normalize_bt` with its default bounds (180 K, 320 K). -/
def normalize_bt (bt_array : List ℚ) : List ℚ :=
  normalize_bt_with BT_MIN BT_MAX bt_array

/-! ### Error-handling policy (inference_engine.process_file,
pipeline.process_frame, pipeline.process_directory)

The numerical work inside the per-frame try-block is abstracted as a
`compute` function that either returns the frame's result or raises
(`Except.error`); the embedding keeps the control flow of the handlers
exactly as in the source. -/

/-- Result dictionary of `InferencePipeline.process_file`: on success the
payload, on failure `{"success": False, "error": str(e)}`. -/
structure ProcessFileResult (α : Type) where
  success : Bool
  error : Option String
  payload : Option α
  deriving DecidableEq

/-- Embedding of `InferencePipeline.process_file`: the whole body is wrapped
in `try/except Exception`, returning a success dictionary or
`{"success": False, "error": str(e)}`.  It never raises. -/
def InferencePipeline.processFile {γ α : Type} (compute : γ → Except String α)
    (f : γ) : ProcessFileResult α :=
  match compute f with
  | .ok r => ⟨true, none, some r⟩
  | .error e => ⟨false, some e, none⟩

/-- Embedding of `TCCPipeline.process_frame`: the body is wrapped in
`try/except Exception` and on any failure the method logs and returns the
empty list (not an error dictionary).  It never raises. -/
def TCCPipeline.processFrame {γ β : Type} (compute : γ → Except String (List β))
    (f : γ) : List β :=
  match compute f with
  | .ok tracked => tracked
  | .error _ => []

/-- Summary dictionary returned by `TCCPipeline.process_directory`. -/
structure DirectorySummary where
  files_processed : ℕ
  files_failed : ℕ
  total_observations : ℕ
  deriving DecidableEq

/-- One iteration of the `process_directory` loop: Python wraps the call to
`process_frame` in `try/except`, incrementing `processed` on normal return
and `errors` when the call raises.  `process_frame` catches every exception
itself and returns a list, so the embedded step always takes the
normal-return branch: `processed` is incremented and `errors` is untouched.
The accumulator is (processed, errors, total observations so far). -/
def TCCPipeline.dirStep {γ β : Type} (compute : γ → Except String (List β))
    (acc : ℕ × ℕ × ℕ) (f : γ) : ℕ × ℕ × ℕ :=
  let tracked := TCCPipeline.processFrame compute f
  (acc.1 + 1, acc.2.1, acc.2.2 + tracked.length)

/-- Embedding of `TCCPipeline.process_directory` restricted to its counting
behaviour: resets the accumulated results, processes every discovered file in
order, and reports `files_processed`, `files_failed` and
`total_observations = len(self.all_results)`. -/
def TCCPipeline.processDirectory {γ β : Type} (compute : γ → Except String (List β))
    (files : List γ) : DirectorySummary :=
  let r := files.foldl (TCCPipeline.dirStep compute) (0, 0, 0)
  ⟨r.1, r.2.1, r.2.2⟩

/-! ### Geolocation handling and NetCDF global attributes
(inference_engine._load_h5, _create_synthetic_coords, _save_netcdf) -/

/-- A geolocation or BT grid: a rectangular array of rationals. -/
abbrev Grid := List (List ℚ)

/-- The relevant content of an HDF5 container after IR-dataset discovery:
the raw IR field (already calibrated) and the optional latitude/longitude
datasets found under their candidate names. -/
structure H5Container where
  irbt : Grid
  lat : Option Grid
  lon : Option Grid

/-- `np.linspace(a, b, n)`. -/
def linspaceQ (a b : ℚ) (n : ℕ) : List ℚ :=
  (List.range n).map (fun i => if n ≤ 1 then a else a + (b - a) * i / (n - 1))

/-- Embedding of `_create_synthetic_coords(shape)`: latitude 30→0 north to
south down the rows, longitude 60→100 west to east along the columns,
meshgridded to the full shape. -/
def createSyntheticCoords (h w : ℕ) : Grid × Grid :=
  let lat_1d := linspaceQ 30 0 h
  let lon_1d := linspaceQ 60 100 w
  (lat_1d.map (fun la => List.replicate w la), List.replicate h lon_1d)

/-- Embedding of the fill-value handling in `_load_h5`: BT below 100 K is
replaced by the mean of the remaining values (250 K if everything is fill). -/
def fillSentinels (g : Grid) : Grid :=
  let valid := g.flatten.filter (fun v => ¬ v < 100)
  let mean := if valid.length = 0 then 250 else valid.sum / valid.length
  g.map (fun row => row.map (fun v => if v < 100 then mean else v))

/-- Embedding of `InferencePipeline._load_h5` from the point where the IR
dataset has been resolved: sentinel handling, then the latitude/longitude
datasets if both are present, otherwise a synthetic grid for both. -/
def InferencePipeline.loadH5 (c : H5Container) : Grid × Grid × Grid :=
  let irbt := fillSentinels c.irbt
  let h := irbt.length
  let w := (irbt.headD []).length
  match c.lat, c.lon with
  | some la, some lo => (irbt, la, lo)
  | _, _ =>
      let synth := createSyntheticCoords h w
      (irbt, synth.1, synth.2)

/-- The geo-grid delivered by `_load_h5` is synthetic exactly when latitude
or longitude was absent from the container. -/
def geoIsSynthetic (c : H5Container) : Bool := c.lat.isNone || c.lon.isNone

/-- The global attributes of the per-frame NetCDF written by `_save_netcdf`
that matter here. -/
structure NetCDFGlobalAttrs where
  conventions : String
  geolocation_available : String
  tcc_count : ℕ

/-- Embedding of the global-attribute construction in `_save_netcdf`:
`"geolocation_available": "true" if lat is not None else "false"`. -/
def saveNetcdfAttrs (latOpt : Option Grid) (detections : ℕ) : NetCDFGlobalAttrs :=
  ⟨"CF-1.8", if latOpt.isSome then "true" else "false", detections⟩

/-- The NetCDF attribute block produced by `process_file` for a container:
`process_file` passes the `lat` array returned by `_load_h5` (never `None`,
because `_load_h5` substitutes a synthetic grid) to `_save_netcdf`. -/
def InferencePipeline.processFileGeoAttr (c : H5Container) (detections : ℕ) :
    NetCDFGlobalAttrs :=
  let r := InferencePipeline.loadH5 c
  saveNetcdfAttrs (some r.2.1) detections

/-! ### Post-processing: connected components and area filter
(inference_engine._apply_post_processing, steps 4 and 5)

The cleaned binary mask handed to `ndimage.label` is embedded as the
`Finset` of its foreground pixels.  `scipy.ndimage.label` is called with no
`structure` argument, so it uses the default structuring element of squared
connectivity 1 — 4-connectivity.  Components are embedded by their
semantics: `compOf S p` computes the set of pixels reachable from `p`
through foreground pixels by horizontal/vertical steps (a saturating
breadth-first closure with `S.card` rounds, which is enough fuel, see
`reachN_saturates`).  The area filter and the `valid_mask` accumulation
then follow the source loop: a component is retained when
`pixel_count * 16 ≥ MIN_AREA_KM2`, and the final mask is the union of the
retained components' pixels. -/

/-- A pixel as (row, column). -/
abbrev Pixel := ℕ × ℕ

/-- 4-adjacency of pixels: one step up, down, left or right. -/
def adj4 (p q : Pixel) : Prop :=
  (p.1 = q.1 ∧ (p.2 + 1 = q.2 ∨ q.2 + 1 = p.2)) ∨
  (p.2 = q.2 ∧ (p.1 + 1 = q.1 ∨ q.1 + 1 = p.1))

instance adj4.instDecidable (p q : Pixel) : Decidable (adj4 p q) := by
  unfold adj4; infer_instance

/-- One step between foreground pixels of the mask `S`. -/
def adjStep (S : Finset Pixel) (a b : Pixel) : Prop := a ∈ S ∧ b ∈ S ∧ adj4 a b

/-- Two pixels are in the same 4-connected component of `S` when a chain of
foreground 4-neighbour steps links them. -/
def connIn (S : Finset Pixel) (p q : Pixel) : Prop :=
  Relation.ReflTransGen (adjStep S) p q

/-- One round of the breadth-first closure: add every foreground pixel
4-adjacent to the current set. -/
def growOnce (S cur : Finset Pixel) : Finset Pixel :=
  cur ∪ S.filter (fun q => ∃ p ∈ cur, adj4 p q)

/-- `n` rounds of the closure starting from `p` (empty if `p` is background). -/
def reachN (S : Finset Pixel) (p : Pixel) : ℕ → Finset Pixel
  | 0 => if p ∈ S then {p} else ∅
  | n + 1 => growOnce S (reachN S p n)

/-- The 4-connected component of `p` in the mask `S`: the closure saturates
after at most `S.card` rounds. -/
def compOf (S : Finset Pixel) (p : Pixel) : Finset Pixel := reachN S p S.card

/-- `InferencePipeline.MIN_AREA_KM2 = 5000.0` — the constant was lowered to
5000 in the source ("LOWERED to 5000 for better detection"); the class
docstring still advertises 34,800 km². -/
def InferencePipeline.MIN_AREA_KM2 : ℚ := 5000

/-- `pixel_area_km2 = PIXEL_RESOLUTION_KM ** 2 = 16` km² per pixel. -/
def InferencePipeline.PIXEL_AREA_KM2 : ℚ := 16

/-- The connected components of the mask, embedding the labelling
`labeled, num_features = ndimage.label(cleaned)`: one region per label. -/
def componentsOf (S : Finset Pixel) : Finset (Finset Pixel) :=
  S.image (compOf S)

/-- The components retained by the area filter
`area_km2 = pixel_count * 16 ≥ MIN_AREA_KM2`. -/
def retainedComponents (S : Finset Pixel) : Finset (Finset Pixel) :=
  (componentsOf S).filter (fun C => InferencePipeline.MIN_AREA_KM2 ≤ InferencePipeline.PIXEL_AREA_KM2 * C.card)

/-- The `valid_mask` accumulation: `valid_mask[region_mask] = 1` for every
retained component, starting from zeros. -/
def finalMask (S : Finset Pixel) : Finset Pixel :=
  (retainedComponents S).biUnion id

/-- A single-row cleaned mask with `n` foreground pixels, used as a concrete
post-processor input: one connected component of area `16 n` km². -/
def rowN (n : ℕ) : Finset Pixel :=
  (Finset.range n).image (fun j => ((0, j) : Pixel))

/-! ### Haversine distance (tracking._haversine_distance and the identical
clustering._haversine_distance) -/

/-- `np.arctan2(y, x)` (four-quadrant arctangent, numpy conventions). -/
noncomputable def atan2 (y x : ℝ) : ℝ :=
  if 0 < x then Real.arctan (y / x)
  else if x < 0 then
    (if 0 ≤ y then Real.arctan (y / x) + Real.pi else Real.arctan (y / x) - Real.pi)
  else
    (if 0 < y then Real.pi / 2 else if y < 0 then -(Real.pi / 2) else 0)

/-- `np.radians(x)`. -/
noncomputable def radians (x : ℝ) : ℝ := x * Real.pi / 180

/-- `EARTH_RADIUS_KM = 6371.0`. -/
def EARTH_RADIUS_KM : ℝ := 6371

/-- Embedding of `_haversine_distance(lat1, lon1, lat2, lon2)` (the same
formula appears in tracking.py and clustering.py). -/
noncomputable def haversineDist (lat1 lon1 lat2 lon2 : ℝ) : ℝ :=
  let lat1_rad := radians lat1
  let lat2_rad := radians lat2
  let dlat := radians (lat2 - lat1)
  let dlon := radians (lon2 - lon1)
  let a := Real.sin (dlat / 2) ^ 2 +
    Real.cos lat1_rad * Real.cos lat2_rad * Real.sin (dlon / 2) ^ 2
  let c := 2 * atan2 (Real.sqrt a) (Real.sqrt (1 - a))
  EARTH_RADIUS_KM * c

/-! ### Module 3: clustering (src/backend/modules/clustering.py)

Only the geophysical-constraint stage is embedded; the DBSCAN stage upstream
produces the `CloudCluster` records this stage consumes. -/

/-- Clustering-module constant `MIN_AREA_KM2 = 34800.0`. -/
def Clustering.MIN_AREA_KM2 : ℝ := 34800

/-- Clustering-module constant `MIN_RADIUS_KM = 111.0`. -/
def Clustering.MIN_RADIUS_KM : ℝ := 111

/-- Clustering-module constant `MIN_CENTROID_SEPARATION_KM = 1200.0`. -/
def Clustering.MIN_CENTROID_SEPARATION_KM : ℝ := 1200

/-- The `CloudCluster` dataclass. -/
structure CloudCluster where
  cluster_id : ℤ
  pixel_coords : List Pixel
  centroid_pixel : ℝ × ℝ
  centroid_lat : ℝ
  centroid_lon : ℝ
  area_km2 : ℝ
  radius_km : ℝ
  pixel_count : ℕ

/-- Embedding of `_apply_separation_constraint(clusters, min_separation_km)`:
sort by area descending (Python `sorted` is stable), then greedily keep a
cluster only when no already-kept cluster lies within `min_separation_km`
of its centroid (haversine). -/
noncomputable def applySeparationConstraint (clusters : List CloudCluster)
    (min_separation_km : ℝ) : List CloudCluster :=
  let sorted := clusters.mergeSort (fun a b => decide (b.area_km2 ≤ a.area_km2))
  sorted.foldl (fun result c =>
    if result.all (fun e =>
        !(decide (haversineDist c.centroid_lat c.centroid_lon
            e.centroid_lat e.centroid_lon < min_separation_km))) then
      result ++ [c]
    else result) []

/-- Embedding of `apply_geophysical_constraints`: area/radius filter first,
then (when more than one survivor) the separation constraint. -/
noncomputable def applyGeophysicalConstraints (clusters : List CloudCluster)
    (min_area_km2 min_radius_km min_separation_km : ℝ) : List CloudCluster :=
  if clusters.isEmpty then []
  else
    let filtered := clusters.filter (fun c =>
      decide (min_area_km2 ≤ c.area_km2) && decide (min_radius_km ≤ c.radius_km))
    if filtered.length ≤ 1 then filtered
    else applySeparationConstraint filtered min_separation_km

/-! ### Module 7: tracking (src/backend/modules/tracking.py)

The Kalman filter state follows `cv2.KalmanFilter(4, 2)`: `predict` computes
the a-priori state/covariance and copies them into the posterior slots
(OpenCV's `predict` ends by copying `statePre` to `statePost` and
`errorCovPre` to `errorCovPost`), so only the posterior pair is carried.
Cluster dictionaries are embedded as structures whose trackside keys are
`Option`-valued (absent until the tracker inserts them); the opaque rest of
the dictionary is the `payload`.  `TCCTracker.update` mutates the caller's
dictionaries in place and returns the same objects; the embedding returns
the updated store of dictionaries together with the list of positions
(aliases) that make up the returned list. -/

/-- Tracking-module constant `MAX_TRACK_DISTANCE_KM = 200.0`. -/
def MAX_TRACK_DISTANCE_KM : ℝ := 200

/-- Tracking-module constant `TRACK_LOST_THRESHOLD = 3`. -/
def TRACK_LOST_THRESHOLD : ℕ := 3

/-- Tracking-module constant `PROCESS_NOISE_COV = 0.03`. -/
noncomputable def PROCESS_NOISE_COV : ℝ := 3 / 100

/-- Tracking-module constant `MEASUREMENT_NOISE_COV = 1.0`. -/
def MEASUREMENT_NOISE_COV : ℝ := 1

/-- The constant-velocity transition matrix set in `__post_init__`. -/
def transitionMatrix : Matrix (Fin 4) (Fin 4) ℝ :=
  !![1, 0, 1, 0; 0, 1, 0, 1; 0, 0, 1, 0; 0, 0, 0, 1]

/-- The measurement matrix set in `__post_init__` (observe lat, lon). -/
def measurementMatrix : Matrix (Fin 2) (Fin 4) ℝ :=
  !![1, 0, 0, 0; 0, 1, 0, 0]

/-- `processNoiseCov = np.eye(4) * PROCESS_NOISE_COV`. -/
noncomputable def processNoiseCov : Matrix (Fin 4) (Fin 4) ℝ := PROCESS_NOISE_COV • 1

/-- `measurementNoiseCov = np.eye(2) * MEASUREMENT_NOISE_COV`. -/
noncomputable def measurementNoiseCov : Matrix (Fin 2) (Fin 2) ℝ :=
  MEASUREMENT_NOISE_COV • 1

/-- The posterior state/covariance pair of the `cv2.KalmanFilter`. -/
structure KalmanState where
  statePost : Fin 4 → ℝ
  errorCovPost : Matrix (Fin 4) (Fin 4) ℝ

/-- The filter as `__post_init__` leaves it: position from the first
observation, zero velocity, zero posterior covariance (OpenCV default). -/
def KalmanState.start (lat lon : ℝ) : KalmanState := ⟨![lat, lon, 0, 0], 0⟩

/-- `cv2.KalmanFilter.predict()` (no control input). -/
noncomputable def KalmanState.predictK (k : KalmanState) : KalmanState :=
  let statePre := transitionMatrix.mulVec k.statePost
  let errorCovPre :=
    transitionMatrix * k.errorCovPost * transitionMatrix.transpose + processNoiseCov
  ⟨statePre, errorCovPre⟩

/-- `cv2.KalmanFilter.correct(measurement)`. -/
noncomputable def KalmanState.correct (k : KalmanState) (z : Fin 2 → ℝ) : KalmanState :=
  let covPre := k.errorCovPost
  let innovationCov :=
    measurementMatrix * covPre * measurementMatrix.transpose + measurementNoiseCov
  let gain := covPre * measurementMatrix.transpose * innovationCov⁻¹
  let statePost := k.statePost + gain.mulVec (z - measurementMatrix.mulVec k.statePost)
  let errorCovPost := (1 - gain * measurementMatrix) * covPre
  ⟨statePost, errorCovPost⟩

/-- A per-frame cluster dictionary as the tracker sees it: the centroid keys
it reads, the four keys it inserts (absent until then), and the rest of the
dictionary as an opaque payload. -/
structure ClusterDict (α : Type) where
  centroid_lat : ℝ
  centroid_lon : ℝ
  track_id : Option ℕ
  timestamp : Option String
  is_predicted : Option Bool
  track_length : Option ℕ
  payload : α

instance ClusterDict.instInhabited {α : Type} [Inhabited α] :
    Inhabited (ClusterDict α) :=
  ⟨⟨0, 0, none, none, none, none, default⟩⟩

/-- One entry of a track's `history` list. -/
structure HistoryEntry (α : Type) where
  lat : ℝ
  lon : ℝ
  is_predicted : Bool
  cluster_data : Option (ClusterDict α)

/-- The `KalmanTrack` dataclass. -/
structure KalmanTrack (α : Type) where
  track_id : ℕ
  kf : KalmanState
  frames_since_update : ℕ
  total_observations : ℕ
  history : List (HistoryEntry α)

/-- `KalmanTrack(track_id, initial_lat, initial_lon)` followed by
`__post_init__`: zero-velocity filter state and the initial history entry. -/
def KalmanTrack.create {α : Type} (track_id : ℕ) (initial_lat initial_lon : ℝ) :
    KalmanTrack α :=
  ⟨track_id, KalmanState.start initial_lat initial_lon, 0, 1,
    [⟨initial_lat, initial_lon, false, none⟩]⟩

instance KalmanTrack.instInhabited {α : Type} : Inhabited (KalmanTrack α) :=
  ⟨KalmanTrack.create 0 0 0⟩

/-- The `position` property: (statePost[0], statePost[1]). -/
def KalmanTrack.position {α : Type} (t : KalmanTrack α) : ℝ × ℝ :=
  (t.kf.statePost 0, t.kf.statePost 1)

/-- The `velocity` property: (statePost[2], statePost[3]). -/
def KalmanTrack.velocity {α : Type} (t : KalmanTrack α) : ℝ × ℝ :=
  (t.kf.statePost 2, t.kf.statePost 3)

/-- `KalmanTrack.predict()`: advance the filter one step, increment
`frames_since_update`, return the predicted position. -/
noncomputable def KalmanTrack.predict {α : Type} (t : KalmanTrack α) :
    KalmanTrack α × (ℝ × ℝ) :=
  let kf := t.kf.predictK
  ({ t with kf := kf, frames_since_update := t.frames_since_update + 1 },
    (kf.statePost 0, kf.statePost 1))

/-- `KalmanTrack.update(lat, lon, cluster_data)`: Kalman correction, reset
`frames_since_update`, count the observation, append to the history. -/
noncomputable def KalmanTrack.update {α : Type} (t : KalmanTrack α) (lat lon : ℝ)
    (cluster_data : Option (ClusterDict α)) : KalmanTrack α :=
  { t with kf := t.kf.correct ![lat, lon],
           frames_since_update := 0,
           total_observations := t.total_observations + 1,
           history := t.history ++ [⟨lat, lon, false, cluster_data⟩] }

/-- `KalmanTrack.is_active()`: `frames_since_update <= TRACK_LOST_THRESHOLD`. -/
def KalmanTrack.isActive {α : Type} (t : KalmanTrack α) : Bool :=
  t.frames_since_update ≤ TRACK_LOST_THRESHOLD

/-- One entry of the list returned by `predict_future`. -/
structure FuturePrediction where
  step : ℕ
  hours_ahead : ℝ
  predicted_lat : ℝ
  predicted_lon : ℝ
  estimated_speed_kmh : ℝ
  movement_direction_deg : ℝ
  confidence : ℝ

/-- Python float modulo `a % b` for `b > 0`. -/
noncomputable def pyFloatMod (a b : ℝ) : ℝ := a - b * ⌊a / b⌋

/-- `np.degrees(x)`. -/
noncomputable def degreesR (x : ℝ) : ℝ := x * 180 / Real.pi

/-- Embedding of `KalmanTrack.predict_future(steps, time_interval_hours)`.
The method reads `position` and `velocity` and extrapolates arithmetically;
it assigns no attribute, so the track component of the result is the track
it was called on. -/
noncomputable def KalmanTrack.predictFuture {α : Type} (t : KalmanTrack α)
    (steps : ℕ) (time_interval_hours : ℝ) : KalmanTrack α × List FuturePrediction :=
  let lat := t.position.1
  let lon := t.position.2
  let v_lat := t.velocity.1
  let v_lon := t.velocity.2
  let speed_kmh := Real.sqrt (v_lat ^ 2 + v_lon ^ 2) * 111
  let direction := pyFloatMod (degreesR (atan2 v_lon v_lat)) 360
  (t, (List.range steps).map (fun k =>
    let step := k + 1
    { step := step,
      hours_ahead := (step : ℝ) * time_interval_hours,
      predicted_lat := lat + v_lat * (step : ℝ),
      predicted_lon := lon + v_lon * (step : ℝ),
      estimated_speed_kmh := speed_kmh,
      movement_direction_deg := direction,
      confidence := max (3 / 10) (1 - (step : ℝ) * (1 / 10)) }))

/-- The `TCCTracker` object: `tracks` is the insertion-ordered dictionary
`track_id -> KalmanTrack` as an association list. -/
structure TCCTracker (α : Type) where
  tracks : List (ℕ × KalmanTrack α)
  next_track_id : ℕ
  frame_count : ℕ
  max_distance : ℝ

/-- The cost-matrix entry of `_assign_clusters_to_tracks`: haversine distance
between the centroid of cluster `i` and the current position estimate of the
`j`-th track in dictionary order. -/
noncomputable def TCCTracker.costMatrix {α : Type} [Inhabited α] (st : TCCTracker α)
    (clusters : List (ClusterDict α)) (i j : ℕ) : ℝ :=
  let c := clusters.getD i default
  let tr := (st.tracks.getD j default).2
  haversineDist c.centroid_lat c.centroid_lon tr.position.1 tr.position.2

/-- Every maximal one-to-one matching between the given row and column
indices (a row may stay unmatched only when there are more rows than
columns left, mirroring that `scipy.optimize.linear_sum_assignment` matches
`min(n, m)` pairs). -/
def matchings : List ℕ → List ℕ → List (List (ℕ × ℕ))
  | [], _ => [[]]
  | _ :: _, [] => [[]]
  | r :: rs, cols =>
      (cols.map (fun c => (matchings rs (cols.erase c)).map (fun M => (r, c) :: M))).flatten ++
      (if cols.length ≤ rs.length then matchings rs cols else [])

/-- The total cost of a matching. -/
noncomputable def assignmentCost (cost : ℕ → ℕ → ℝ) (M : List (ℕ × ℕ)) : ℝ :=
  (M.map (fun p => cost p.1 p.2)).sum

/-- First minimiser of `f` in a list of candidate matchings. -/
noncomputable def selectMinBy (f : List (ℕ × ℕ) → ℝ) :
    List (List (ℕ × ℕ)) → Option (List (ℕ × ℕ))
  | [] => none
  | [M] => some M
  | M :: Ms =>
      match selectMinBy f Ms with
      | none => some M
      | some B => if f M ≤ f B then some M else some B

/-- Model of `scipy.optimize.linear_sum_assignment(cost_matrix)`: a maximal
matching of rows `0..n-1` to columns `0..m-1` of minimum total cost (the
solver's tie-break between equally cheap optima is not observable through
the claims; the model takes the first in enumeration order). -/
noncomputable def linearSumAssignment (n m : ℕ) (cost : ℕ → ℕ → ℝ) :
    List (ℕ × ℕ) :=
  (selectMinBy (assignmentCost cost) (matchings (List.range n) (List.range m))).getD []

/-- Embedding of `TCCTracker._assign_clusters_to_tracks(clusters)`: build the
cost matrix, run the Hungarian algorithm, and keep an assigned pair only when
its distance is strictly below `self.max_distance`.  The result maps the
cluster index to the matched `track_id`. -/
noncomputable def TCCTracker.assignClustersToTracks {α : Type} [Inhabited α]
    (st : TCCTracker α) (clusters : List (ClusterDict α)) : List (ℕ × ℕ) :=
  if st.tracks.isEmpty || clusters.isEmpty then []
  else
    let track_ids := st.tracks.map Prod.fst
    let cost := st.costMatrix clusters
    let pairs := linearSumAssignment clusters.length st.tracks.length cost
    pairs.filterMap (fun (p : ℕ × ℕ) =>
      if cost p.1 p.2 < st.max_distance then some (p.1, track_ids.getD p.2 0)
      else none)

/-- `TCCTracker._create_track(lat, lon)`: fresh id, new dictionary entry. -/
def TCCTracker.createTrack {α : Type} (st : TCCTracker α) (lat lon : ℝ) :
    TCCTracker α × ℕ :=
  let track_id := st.next_track_id
  ({ st with next_track_id := track_id + 1,
             tracks := st.tracks ++ [(track_id, KalmanTrack.create track_id lat lon)] },
    track_id)

/-- Replace the dictionary entry of one track id. -/
def TCCTracker.setTrack {α : Type} (st : TCCTracker α) (tid : ℕ)
    (t : KalmanTrack α) : TCCTracker α :=
  { st with tracks := st.tracks.map (fun p => if p.1 = tid then (tid, t) else p) }

/-- `TCCTracker._cleanup_lost_tracks()`: drop every track that is not active
(`frames_since_update > TRACK_LOST_THRESHOLD`). -/
def TCCTracker.cleanupLostTracks {α : Type} (st : TCCTracker α) : TCCTracker α :=
  { st with tracks := st.tracks.filter (fun p => p.2.isActive) }

/-- The body of the matched-pair loop in `TCCTracker.update`: correct the
matched track with the cluster centroid, write the four tracking keys into
the caller's dictionary at position `pair.1` (in-place mutation), and append
that same dictionary (its position) to `tracked_output`. -/
noncomputable def TCCTracker.matchStep {α : Type} [Inhabited α] (timestamp : String)
    (acc : TCCTracker α × List (ClusterDict α) × List ℕ) (pair : ℕ × ℕ) :
    TCCTracker α × List (ClusterDict α) × List ℕ :=
  let ci := pair.1
  let tid := pair.2
  let c := acc.2.1.getD ci default
  let tr := ((acc.1.tracks.find? (fun (p : ℕ × KalmanTrack α) => p.1 = tid)).getD
    (tid, default)).2
  let tr2 := tr.update c.centroid_lat c.centroid_lon (some c)
  let c2 := { c with track_id := some tid, timestamp := some timestamp,
                     is_predicted := some false,
                     track_length := some tr2.total_observations }
  (acc.1.setTrack tid tr2, acc.2.1.set ci c2, acc.2.2 ++ [ci])

/-- The body of the unmatched-cluster loop in `TCCTracker.update`: start a
fresh track at the cluster centroid and write the four tracking keys into
the caller's dictionary at position `i`. -/
def TCCTracker.newStep {α : Type} [Inhabited α] (timestamp : String)
    (acc : TCCTracker α × List (ClusterDict α) × List ℕ) (i : ℕ) :
    TCCTracker α × List (ClusterDict α) × List ℕ :=
  let c := acc.2.1.getD i default
  let r := acc.1.createTrack c.centroid_lat c.centroid_lon
  let c2 := { c with track_id := some r.2, timestamp := some timestamp,
                     is_predicted := some false, track_length := some 1 }
  (r.1, acc.2.1.set i c2, acc.2.2 ++ [i])

/-- Embedding of `TCCTracker.update(clusters, timestamp)`.  Python mutates
the caller's cluster dictionaries in place and appends those same objects to
`tracked_output`; the embedding returns (new tracker state, the caller's
dictionary store after mutation, the positions of the returned objects in
that store).  Unmatched-cluster iteration order over the Python set
`set(range(len(clusters))) - set(assignments)` is modelled as ascending. -/
noncomputable def TCCTracker.update {α : Type} [Inhabited α] (st0 : TCCTracker α)
    (clusters : List (ClusterDict α)) (timestamp : String) :
    TCCTracker α × List (ClusterDict α) × List ℕ :=
  let st := { st0 with frame_count := st0.frame_count + 1,
                       tracks := st0.tracks.map
                         (fun (p : ℕ × KalmanTrack α) => (p.1, p.2.predict.1)) }
  if clusters.isEmpty then (st.cleanupLostTracks, clusters, [])
  else
    let assignments := st.assignClustersToTracks clusters
    let step1 := assignments.foldl (TCCTracker.matchStep timestamp)
      (st, clusters, ([] : List ℕ))
    let unmatched := (List.range clusters.length).filter
      (fun i => ¬ assignments.any (fun p => p.1 = i))
    let step2 := unmatched.foldl (TCCTracker.newStep timestamp) step1
    (step2.1.cleanupLostTracks, step2.2.1, step2.2.2)

/-- The separation predicate checked by the Label-Maker: the two centroids
are at least `min_separation_km` apart (haversine). -/
def separatedBy (min_separation_km : ℝ) (a b : CloudCluster) : Prop :=
  min_separation_km ≤
    haversineDist a.centroid_lat a.centroid_lon b.centroid_lat b.centroid_lon

/-! ## Theorems -/

/-! ### Normaliser (claim C3) -/

lemma npClip01_mem (v : ℚ) : 0 ≤ npClip 0 1 v ∧ npClip 0 1 v ≤ 1 := by
  unfold npClip
  exact ⟨le_min (le_max_right v 0) zero_le_one, min_le_right _ _⟩

lemma npClip01_of_mem {v : ℚ} (h0 : 0 ≤ v) (h1 : v ≤ 1) : npClip 0 1 v = v := by
  unfold npClip
  rw [max_eq_left h0, min_eq_left h1]

lemma npClip01_idem (v : ℚ) : npClip 0 1 (npClip 0 1 v) = npClip 0 1 v :=
  npClip01_of_mem (npClip01_mem v).1 (npClip01_mem v).2

lemma renorm_pointwise (v : ℚ) :
    npClip 0 1 ((npClip 0 1 ((v - BT_MIN) / (BT_MAX - BT_MIN)) - BT_MIN) /
      (BT_MAX - BT_MIN)) = 0 := by
  set y := npClip 0 1 ((v - BT_MIN) / (BT_MAX - BT_MIN)) with hy
  have h1 : y ≤ 1 := (npClip01_mem _).2
  have h2 : (y - BT_MIN) / (BT_MAX - BT_MIN) ≤ 0 := by
    apply div_nonpos_of_nonpos_of_nonneg
    · simp only [BT_MIN]
      linarith
    · simp only [BT_MIN, BT_MAX]
      norm_num
  unfold npClip
  rw [max_eq_right h2]
  simp

/-- Claim C3, counterexample: re-normalising the normalised array `[320 K]`
(whose normalised value is 1) yields `[0]`, not `[1]`, so
`normalise(normalise(x)) = normalise(x)` fails. -/
theorem C3_counterexample :
    normalize_bt (normalize_bt [320]) ≠ normalize_bt [320] := by
  unfold normalize_bt normalize_bt_with npClip BT_MIN BT_MAX
  norm_num

/-- Claim C3, amended: with the fixed bounds (180 K, 320 K) the normaliser is
not idempotent — every value of a normalised array lies in [0, 1], far below
`min_bt = 180`, so a second application collapses the array to all zeros.
What does hold is that the clamp is idempotent: re-clamping a normalised
array to [0, 1] leaves it unchanged. -/
theorem C3_renormalize_collapses (x : List ℚ) :
    normalize_bt (normalize_bt x) = x.map (fun _ => 0) ∧
    (normalize_bt x).map (npClip 0 1) = normalize_bt x := by
  constructor
  · unfold normalize_bt normalize_bt_with
    induction x with
    | nil => rfl
    | cons a t ih => simpa [renorm_pointwise] using ih
  · unfold normalize_bt normalize_bt_with
    induction x with
    | nil => rfl
    | cons a t ih =>
        simp only [List.map_cons, npClip01_idem]
        rw [ih]

/-! ### Error-handling policy (claim C6) -/

lemma processDirectory_foldl {γ β : Type} (compute : γ → Except String (List β))
    (files : List γ) (acc : ℕ × ℕ × ℕ) :
    files.foldl (TCCPipeline.dirStep compute) acc =
      (acc.1 + files.length, acc.2.1,
        acc.2.2 + (files.map (fun f => (TCCPipeline.processFrame compute f).length)).sum) := by
  induction files generalizing acc with
  | nil => simp
  | cons f fs ih =>
      rw [List.foldl_cons, ih]
      unfold TCCPipeline.dirStep
      simp
      constructor
      · omega
      · ring

/-- Claim C6, amended: `InferencePipeline.process_file` indeed returns
`{"success": False, "error": str(e)}` without raising when its body fails,
and `TCCPipeline.process_directory` continues over every file; but
`TCCPipeline.process_frame` converts failures to the empty list instead of
an error dictionary, so the `files_failed` tally of `process_directory` is
always 0 (its `except` branch is unreachable) and a failed granule is
counted as processed. -/
theorem C6_error_policy {γ β : Type} (compute : γ → Except String (List β))
    (files : List γ) (f : γ) (e : String) (h : compute f = .error e) :
    InferencePipeline.processFile compute f = ⟨false, some e, none⟩ ∧
    TCCPipeline.processFrame compute f = [] ∧
    (TCCPipeline.processDirectory compute files).files_failed = 0 ∧
    (TCCPipeline.processDirectory compute files).files_processed = files.length := by
  refine ⟨?_, ?_, ?_, ?_⟩
  · unfold InferencePipeline.processFile
    rw [h]
  · unfold TCCPipeline.processFrame
    rw [h]
  · unfold TCCPipeline.processDirectory
    rw [processDirectory_foldl]
  · unfold TCCPipeline.processDirectory
    rw [processDirectory_foldl]
    simp

/-- Witness for C6 at a concrete two-file directory: one unreadable granule
and one good granule. -/
theorem C6_error_policy_witness :
    InferencePipeline.processFile
      (fun b => if b then Except.error "unreadable" else Except.ok [0]) true =
      ⟨false, some "unreadable", none⟩ ∧
    TCCPipeline.processFrame
      (fun b => if b then Except.error "unreadable" else Except.ok [0]) true = [] ∧
    (TCCPipeline.processDirectory
      (fun b => if b then Except.error "unreadable" else Except.ok [0])
      [true, false]).files_failed = 0 ∧
    (TCCPipeline.processDirectory
      (fun b => if b then Except.error "unreadable" else Except.ok [0])
      [true, false]).files_processed = [true, false].length :=
  C6_error_policy _ [true, false] true "unreadable" rfl

/-- Claim C6, counterexample: a directory with one unreadable granule and
one good granule reports `files_failed = 0`, not 1 — `process_frame`
swallows the failure and `process_directory` counts the file as processed. -/
theorem C6_counterexample :
    (TCCPipeline.processDirectory
      (fun b => if b then Except.error "unreadable" else Except.ok [0])
      [true, false]).files_failed = 0 ∧
    (TCCPipeline.processDirectory
      (fun b => if b then Except.error "unreadable" else Except.ok [0])
      [true, false]).files_processed = 2 := by
  constructor <;> rfl

/-! ### Connected components and the area filter (claims C1 and C2) -/

lemma adj4_symm {p q : Pixel} (h : adj4 p q) : adj4 q p := by
  unfold adj4 at *
  tauto

lemma adjStep_symm (S : Finset Pixel) : Symmetric (adjStep S) := by
  intro a b ⟨ha, hb, hadj⟩
  exact ⟨hb, ha, adj4_symm hadj⟩

lemma connIn_symm {S : Finset Pixel} {p q : Pixel} (h : connIn S p q) :
    connIn S q p :=
  Relation.ReflTransGen.symmetric (adjStep_symm S) h

lemma subset_growOnce (S cur : Finset Pixel) : cur ⊆ growOnce S cur :=
  Finset.subset_union_left

lemma growOnce_subset {S cur : Finset Pixel} (h : cur ⊆ S) : growOnce S cur ⊆ S :=
  Finset.union_subset h (Finset.filter_subset _ _)

lemma reachN_subset (S : Finset Pixel) (p : Pixel) (n : ℕ) : reachN S p n ⊆ S := by
  induction n with
  | zero =>
      unfold reachN
      split
      · next hp => exact Finset.singleton_subset_iff.mpr hp
      · exact Finset.empty_subset S
  | succ n ih => exact growOnce_subset ih

lemma reachN_mono_succ (S : Finset Pixel) (p : Pixel) (n : ℕ) :
    reachN S p n ⊆ reachN S p (n + 1) :=
  subset_growOnce S _

lemma reachN_mono (S : Finset Pixel) (p : Pixel) {m n : ℕ} (h : m ≤ n) :
    reachN S p m ⊆ reachN S p n := by
  induction n with
  | zero => simp [Nat.le_zero.mp h]
  | succ n ih =>
      rcases Nat.lt_or_ge m (n + 1) with hlt | hge
      · exact (ih (Nat.lt_succ_iff.mp hlt)).trans (reachN_mono_succ S p n)
      · have : m = n + 1 := le_antisymm h hge
        subst this
        exact subset_rfl

lemma reachN_sound {S : Finset Pixel} {p : Pixel} :
    ∀ {n : ℕ} {q : Pixel}, q ∈ reachN S p n → p ∈ S ∧ connIn S p q := by
  intro n
  induction n with
  | zero =>
      intro q h
      unfold reachN at h
      split at h
      · next hp =>
          rw [Finset.mem_singleton] at h
          subst h
          exact ⟨hp, Relation.ReflTransGen.refl⟩
      · exact absurd h (Finset.not_mem_empty q)
  | succ n ih =>
      intro q h
      unfold reachN growOnce at h
      rw [Finset.mem_union] at h
      rcases h with h | h
      · exact ih h
      · rw [Finset.mem_filter] at h
        obtain ⟨hqS, r, hr, hadj⟩ := h
        obtain ⟨hpS, hconn⟩ := ih hr
        exact ⟨hpS, hconn.tail ⟨reachN_subset S p n hr, hqS, hadj⟩⟩

lemma reachN_stable {S : Finset Pixel} {p : Pixel} {n : ℕ}
    (h : growOnce S (reachN S p n) = reachN S p n) {m : ℕ} (hm : n ≤ m) :
    reachN S p m = reachN S p n := by
  induction m with
  | zero =>
      have : n = 0 := Nat.le_zero.mp hm
      simp [this]
  | succ m ih =>
      rcases Nat.lt_or_ge n (m + 1) with hlt | hge
      · have hb := ih (Nat.lt_succ_iff.mp hlt)
        show growOnce S (reachN S p m) = reachN S p n
        rw [hb, h]
      · have : n = m + 1 := le_antisymm hm hge
        simp [this]

lemma reachN_sat_or_card (S : Finset Pixel) (p : Pixel) (n : ℕ) :
    (∃ k ≤ n, growOnce S (reachN S p k) = reachN S p k) ∨
      n + 1 ≤ (reachN S p n).card := by
  induction n with
  | zero =>
      by_cases hp : p ∈ S
      · right
        simp [reachN, hp]
      · left
        refine ⟨0, le_rfl, ?_⟩
        simp [reachN, hp, growOnce]
  | succ n ih =>
      rcases ih with ⟨k, hk, hsat⟩ | hcard
      · exact Or.inl ⟨k, hk.trans (Nat.le_succ n), hsat⟩
      · by_cases hsat : growOnce S (reachN S p n) = reachN S p n
        · exact Or.inl ⟨n, Nat.le_succ n, hsat⟩
        · right
          have hsub : reachN S p n ⊆ reachN S p (n + 1) := reachN_mono_succ S p n
          have hss : reachN S p n ⊂ reachN S p (n + 1) := by
            refine Finset.ssubset_iff_subset_ne.mpr ⟨hsub, ?_⟩
            intro heq
            apply hsat
            calc growOnce S (reachN S p n) = reachN S p (n + 1) := rfl
              _ = reachN S p n := heq.symm
          have := Finset.card_lt_card hss
          omega

lemma compOf_sat (S : Finset Pixel) (p : Pixel) :
    growOnce S (compOf S p) = compOf S p := by
  unfold compOf
  rcases reachN_sat_or_card S p S.card with ⟨k, hk, hsat⟩ | hcard
  · rw [reachN_stable hsat hk]
    exact hsat
  · have hle : (reachN S p S.card).card ≤ S.card :=
      Finset.card_le_card (reachN_subset S p S.card)
    omega

lemma mem_compOf_self {S : Finset Pixel} {p : Pixel} (hp : p ∈ S) :
    p ∈ compOf S p := by
  have h0 : p ∈ reachN S p 0 := by simp [reachN, hp]
  exact reachN_mono S p (Nat.zero_le _) h0

lemma connIn_mem_compOf {S : Finset Pixel} {p q : Pixel} (hp : p ∈ S)
    (h : connIn S p q) : q ∈ compOf S p := by
  induction h with
  | refl => exact mem_compOf_self hp
  | tail hab hbc ih =>
      rw [← compOf_sat S p]
      unfold growOnce
      rw [Finset.mem_union, Finset.mem_filter]
      exact Or.inr ⟨hbc.2.1, _, ih, hbc.2.2⟩

lemma mem_compOf_iff {S : Finset Pixel} {p q : Pixel} :
    q ∈ compOf S p ↔ p ∈ S ∧ connIn S p q :=
  ⟨reachN_sound, fun ⟨hp, h⟩ => connIn_mem_compOf hp h⟩

lemma compOf_subset (S : Finset Pixel) (p : Pixel) : compOf S p ⊆ S :=
  reachN_subset S p S.card

lemma compOf_eq_of_mem {S : Finset Pixel} {p q : Pixel} (h : q ∈ compOf S p) :
    compOf S q = compOf S p := by
  obtain ⟨hp, hconn⟩ := mem_compOf_iff.mp h
  have hq : q ∈ S := compOf_subset S p h
  ext r
  rw [mem_compOf_iff, mem_compOf_iff]
  constructor
  · rintro ⟨_, hr⟩
    exact ⟨hp, hconn.trans hr⟩
  · rintro ⟨_, hr⟩
    exact ⟨hq, (connIn_symm hconn).trans hr⟩

lemma mem_finalMask_iff (S : Finset Pixel) (p : Pixel) :
    p ∈ finalMask S ↔ p ∈ S ∧
      InferencePipeline.MIN_AREA_KM2 ≤
        InferencePipeline.PIXEL_AREA_KM2 * (compOf S p).card := by
  unfold finalMask retainedComponents componentsOf
  simp only [Finset.mem_biUnion, Finset.mem_filter, Finset.mem_image, id]
  constructor
  · rintro ⟨C, ⟨⟨q, hq, rfl⟩, harea⟩, hp⟩
    refine ⟨compOf_subset S q hp, ?_⟩
    rw [compOf_eq_of_mem hp]
    exact harea
  · rintro ⟨hp, harea⟩
    exact ⟨compOf S p, ⟨⟨p, hp, rfl⟩, harea⟩, mem_compOf_self hp⟩

lemma rowN_mem_iff {n : ℕ} {q : Pixel} : q ∈ rowN n ↔ q.1 = 0 ∧ q.2 < n := by
  unfold rowN
  simp only [Finset.mem_image, Finset.mem_range]
  constructor
  · rintro ⟨j, hj, rfl⟩
    exact ⟨rfl, hj⟩
  · rintro ⟨h0, hj⟩
    exact ⟨q.2, hj, by cases q; simp_all⟩

lemma rowN_card (n : ℕ) : (rowN n).card = n := by
  unfold rowN
  rw [Finset.card_image_of_injective _ (fun a b h => by simpa using h)]
  exact Finset.card_range n

lemma rowN_conn {n : ℕ} : ∀ j, j < n → connIn (rowN n) (0, 0) (0, j) := by
  intro j
  induction j with
  | zero => intro _; exact Relation.ReflTransGen.refl
  | succ j ih =>
      intro hj
      have h1 : ((0, j) : Pixel) ∈ rowN n := rowN_mem_iff.mpr ⟨rfl, by omega⟩
      have h2 : ((0, j + 1) : Pixel) ∈ rowN n := rowN_mem_iff.mpr ⟨rfl, hj⟩
      exact (ih (by omega)).tail ⟨h1, h2, Or.inl ⟨rfl, Or.inl rfl⟩⟩

lemma compOf_rowN {n : ℕ} (hn : 0 < n) : compOf (rowN n) (0, 0) = rowN n := by
  ext q
  constructor
  · intro h
    exact compOf_subset _ _ h
  · intro hq
    obtain ⟨h0, hj⟩ := rowN_mem_iff.mp hq
    have hq2 : q = (0, q.2) := by cases q; simp_all
    rw [hq2]
    exact connIn_mem_compOf (rowN_mem_iff.mpr ⟨rfl, hn⟩) (rowN_conn q.2 hj)

/-- Claim C2, amended: `ndimage.label(cleaned)` is called without a
`structure` argument, so scipy uses the default structuring element of
squared connectivity 1 — 4-connectivity, not 8: two foreground pixels
share a component exactly when a chain of horizontal/vertical foreground
steps links them, and a pixel is never adjacent to its diagonal
neighbour. -/
theorem C2_label_uses_4_connectivity (S : Finset Pixel) (p q : Pixel) :
    (q ∈ compOf S p ↔ p ∈ S ∧ connIn S p q) ∧
    ¬ adj4 p (p.1 + 1, p.2 + 1) := by
  refine ⟨mem_compOf_iff, ?_⟩
  unfold adj4
  simp

/-- Claim C2, counterexample: in the mask `{(0,0), (1,1)}` the two
foreground pixels are diagonal neighbours yet belong to different
components of the 4-connectivity labelling. -/
theorem C2_counterexample :
    ((0, 0) : Pixel) ∈ ({(0, 0), (1, 1)} : Finset Pixel) ∧
    ((1, 1) : Pixel) ∈ ({(0, 0), (1, 1)} : Finset Pixel) ∧
    ((1, 1) : Pixel) ∉ compOf ({(0, 0), (1, 1)} : Finset Pixel) (0, 0) := by
  decide

attribute [irreducible] growOnce reachN compOf componentsOf retainedComponents
attribute [irreducible] finalMask rowN

/-- Claim C1, amended: in the source the configured minimum is
`MIN_AREA_KM2 = 5000` km² (the constant was lowered from the documented
34 800).  With that minimum the invariant holds: a pixel is set in the
emitted final mask exactly when it is a foreground pixel of the cleaned
mask whose 4-connected component has area `16 · pixel_count ≥ 5000` km²;
every retained component is contained whole in the mask, so the mask is
exactly the union of the retained components' pixels. -/
theorem C1_final_mask_is_union_of_min_area_components (S : Finset Pixel)
    (p : Pixel) (hp : p ∈ finalMask S) :
    p ∈ S ∧
    InferencePipeline.MIN_AREA_KM2 ≤
      InferencePipeline.PIXEL_AREA_KM2 * (compOf S p).card ∧
    compOf S p ⊆ finalMask S ∧
    (∀ q, q ∈ S →
      InferencePipeline.MIN_AREA_KM2 ≤
        InferencePipeline.PIXEL_AREA_KM2 * (compOf S q).card →
      q ∈ finalMask S) := by
  obtain ⟨hS, harea⟩ := (mem_finalMask_iff S p).mp hp
  refine ⟨hS, harea, ?_, ?_⟩
  · intro r hr
    rw [mem_finalMask_iff]
    refine ⟨compOf_subset S p hr, ?_⟩
    rw [compOf_eq_of_mem hr]
    exact harea
  · intro q hq hqarea
    exact (mem_finalMask_iff S q).mpr ⟨hq, hqarea⟩

lemma rowN_in_final_mask (n : ℕ) (hn : 0 < n)
    (harea : InferencePipeline.MIN_AREA_KM2 ≤ InferencePipeline.PIXEL_AREA_KM2 * n)
    (hlt : InferencePipeline.PIXEL_AREA_KM2 * n < 34800) :
    ((0, 0) : Pixel) ∈ finalMask (rowN n) ∧
      InferencePipeline.PIXEL_AREA_KM2 *
        ((compOf (rowN n) ((0, 0) : Pixel)).card : ℚ) < 34800 := by
  have hcard : ((compOf (rowN n) ((0, 0) : Pixel)).card : ℚ) = n := by
    rw [compOf_rowN hn, rowN_card]
  constructor
  · rw [mem_finalMask_iff]
    refine ⟨rowN_mem_iff.mpr ⟨rfl, hn⟩, ?_⟩
    rw [hcard]
    exact harea
  · rw [hcard]
    exact hlt

/-- Claim C1, counterexample: a single 313-pixel component (area
5008 km² ≥ the configured 5000 km² minimum) survives the area filter, so
the emitted mask contains a pixel whose connected component has area
5008 km² < 34 800 km², refuting the claimed 34 800 km² default. -/
theorem C1_counterexample :
    ((0, 0) : Pixel) ∈ finalMask (rowN 313) ∧
      InferencePipeline.PIXEL_AREA_KM2 *
        ((compOf (rowN 313) ((0, 0) : Pixel)).card : ℚ) < 34800 :=
  rowN_in_final_mask 313 (by norm_num)
    (by unfold InferencePipeline.MIN_AREA_KM2 InferencePipeline.PIXEL_AREA_KM2; norm_num)
    (by unfold InferencePipeline.PIXEL_AREA_KM2; norm_num)

/-- Witness for C1 at a concrete cleaned mask: the 313-pixel row. -/
theorem C1_final_mask_witness :
    ((0, 0) : Pixel) ∈ rowN 313 ∧
    InferencePipeline.MIN_AREA_KM2 ≤
      InferencePipeline.PIXEL_AREA_KM2 * (compOf (rowN 313) ((0, 0) : Pixel)).card ∧
    compOf (rowN 313) ((0, 0) : Pixel) ⊆ finalMask (rowN 313) ∧
    (∀ q, q ∈ rowN 313 →
      InferencePipeline.MIN_AREA_KM2 ≤
        InferencePipeline.PIXEL_AREA_KM2 * (compOf (rowN 313) q).card →
      q ∈ finalMask (rowN 313)) :=
  C1_final_mask_is_union_of_min_area_components (rowN 313) (0, 0)
    (rowN_in_final_mask 313 (by norm_num)
      (by unfold InferencePipeline.MIN_AREA_KM2 InferencePipeline.PIXEL_AREA_KM2; norm_num)
      (by unfold InferencePipeline.PIXEL_AREA_KM2; norm_num)).1

/-! ### NetCDF geolocation attribute (claim C7) -/

/-- Claim C7: the code contradicts the claim.  `_load_h5` replaces an absent
latitude/longitude pair by a synthetic grid before returning, so the `lat`
argument that `process_file` hands to `_save_netcdf` is never `None` and the
global attribute `geolocation_available` is the string `"true"` even when
the geo-grid is synthetic (the `"false"` branch is unreachable from
`process_file`). -/
theorem C7_geolocation_attr_true (c : H5Container) (detections : ℕ)
    (_h : geoIsSynthetic c = true) :
    (InferencePipeline.processFileGeoAttr c detections).geolocation_available =
      "true" := by
  unfold InferencePipeline.processFileGeoAttr saveNetcdfAttrs
  rfl

/-- Witness for C7: a container with no latitude/longitude datasets (the
grid is synthesised) still gets `geolocation_available = "true"`. -/
theorem C7_geolocation_attr_true_witness :
    geoIsSynthetic ⟨[[250]], none, none⟩ = true ∧
    (InferencePipeline.processFileGeoAttr ⟨[[250]], none, none⟩ 0).geolocation_available =
      "true" :=
  ⟨rfl, C7_geolocation_attr_true ⟨[[250]], none, none⟩ 0 rfl⟩

/-! ### Haversine distance and the separation constraint (claim C8) -/

lemma atan2_pos_x {y x : ℝ} (hx : 0 < x) : atan2 y x = Real.arctan (y / x) := by
  unfold atan2
  rw [if_pos hx]

lemma sin_sq_abs (x : ℝ) : Real.sin |x| ^ 2 = Real.sin x ^ 2 := by
  rcases le_or_lt 0 x with h | h
  · rw [abs_of_nonneg h]
  · rw [abs_of_neg h, Real.sin_neg, neg_sq]

lemma atan2_sqrt_sin (x : ℝ) (h0 : 0 ≤ x) (hlt : x < Real.pi / 2) :
    atan2 (Real.sqrt (Real.sin x ^ 2)) (Real.sqrt (1 - Real.sin x ^ 2)) = x := by
  have hpi := Real.pi_pos
  have hsin : 0 ≤ Real.sin x :=
    Real.sin_nonneg_of_nonneg_of_le_pi h0 (by linarith)
  have hcos : 0 < Real.cos x := by
    apply Real.cos_pos_of_mem_Ioo
    exact ⟨by linarith, hlt⟩
  have h1 : Real.sqrt (Real.sin x ^ 2) = Real.sin x := by
    rw [Real.sqrt_sq_eq_abs, abs_of_nonneg hsin]
  have h2 : (1 : ℝ) - Real.sin x ^ 2 = Real.cos x ^ 2 := by
    rw [← Real.sin_sq_add_cos_sq x]
    ring
  have h3 : Real.sqrt (1 - Real.sin x ^ 2) = Real.cos x := by
    rw [h2, Real.sqrt_sq hcos.le]
  rw [h1, h3, atan2_pos_x hcos, ← Real.tan_eq_sin_div_cos,
    Real.arctan_tan (by linarith) hlt]

lemma haversineDist_equator (a b : ℝ)
    (h : |(b - a) * Real.pi / 180 / 2| < Real.pi / 2) :
    haversineDist 0 a 0 b = EARTH_RADIUS_KM * |(b - a) * Real.pi / 180| := by
  unfold haversineDist radians
  simp only [sub_zero, sub_self, zero_mul, zero_div, Real.sin_zero, Real.cos_zero,
    one_mul, ne_eq, OfNat.ofNat_ne_zero, not_false_eq_true, zero_pow, zero_add]
  set x := (b - a) * Real.pi / 180 / 2 with hxdef
  have hx2 : (b - a) * Real.pi / 180 = 2 * x := by
    rw [hxdef]
    ring
  have hsq : Real.sin x ^ 2 = Real.sin |x| ^ 2 := (sin_sq_abs x).symm
  rw [hsq, atan2_sqrt_sin |x| (abs_nonneg x) h, hx2, abs_mul]
  rw [abs_of_nonneg (by norm_num : (0:ℝ) ≤ 2)]

lemma haversineDist_L0 :
    haversineDist 0 (36000 / (6371 * Real.pi)) 0 0 = 200 := by
  have hpi3 := Real.pi_gt_three
  have hpin : Real.pi ≠ 0 := by positivity
  have hx : (0 - 36000 / (6371 * Real.pi)) * Real.pi / 180 = -(200 / 6371) := by
    field_simp
    ring
  have habs : |(0 - 36000 / (6371 * Real.pi)) * Real.pi / 180 / 2| < Real.pi / 2 := by
    have hx2 : (0 - 36000 / (6371 * Real.pi)) * Real.pi / 180 / 2 = -(100 / 6371) := by
      rw [hx]
      ring
    rw [hx2, abs_neg, abs_of_pos (by norm_num)]
    nlinarith
  rw [haversineDist_equator _ _ habs, hx, abs_neg, abs_of_pos (by norm_num)]
  unfold EARTH_RADIUS_KM
  norm_num

lemma haversineDist_comm (lat1 lon1 lat2 lon2 : ℝ) :
    haversineDist lat1 lon1 lat2 lon2 = haversineDist lat2 lon2 lat1 lon1 := by
  simp only [haversineDist, radians]
  have h1 : Real.sin ((lat1 - lat2) * Real.pi / 180 / 2) ^ 2
      = Real.sin ((lat2 - lat1) * Real.pi / 180 / 2) ^ 2 := by
    rw [show (lat1 - lat2) * Real.pi / 180 / 2
        = -((lat2 - lat1) * Real.pi / 180 / 2) by ring, Real.sin_neg, neg_sq]
  have h2 : Real.sin ((lon1 - lon2) * Real.pi / 180 / 2) ^ 2
      = Real.sin ((lon2 - lon1) * Real.pi / 180 / 2) ^ 2 := by
    rw [show (lon1 - lon2) * Real.pi / 180 / 2
        = -((lon2 - lon1) * Real.pi / 180 / 2) by ring, Real.sin_neg, neg_sq]
  rw [h1, h2,
    mul_comm (Real.cos (lat2 * Real.pi / 180)) (Real.cos (lat1 * Real.pi / 180))]

lemma pairwise_length_le_one {β : Type} {R : β → β → Prop} {l : List β}
    (h : l.length ≤ 1) : l.Pairwise R := by
  match l with
  | [] => exact List.Pairwise.nil
  | [a] => exact List.pairwise_singleton R a
  | a :: b :: t => simp at h

lemma sepFold_pairwise (min_sep : ℝ) :
    ∀ (l acc : List CloudCluster),
      acc.Pairwise (separatedBy min_sep) →
      (l.foldl (fun result c =>
        if result.all (fun e =>
            !(decide (haversineDist c.centroid_lat c.centroid_lon
                e.centroid_lat e.centroid_lon < min_sep))) then result ++ [c]
        else result) acc).Pairwise (separatedBy min_sep) := by
  intro l
  induction l with
  | nil => intro acc h; exact h
  | cons c l ih =>
      intro acc h
      rw [List.foldl_cons]
      by_cases hc : acc.all (fun e =>
          !(decide (haversineDist c.centroid_lat c.centroid_lon
              e.centroid_lat e.centroid_lon < min_sep))) = true
      · rw [if_pos hc]
        apply ih
        rw [List.pairwise_append]
        refine ⟨h, List.pairwise_singleton _ _, ?_⟩
        intro a ha b hb
        rw [List.mem_singleton] at hb
        subst hb
        have hd := List.all_eq_true.mp hc a ha
        simp only [Bool.not_eq_eq_eq_not, Bool.not_true, decide_eq_false_iff_not,
          not_lt] at hd
        unfold separatedBy
        rw [haversineDist_comm]
        exact hd
      · rw [if_neg hc]
        exact ih acc h

lemma sepFold_sublist (min_sep : ℝ) :
    ∀ (l acc : List CloudCluster),
      ((l.foldl (fun result c =>
        if result.all (fun e =>
            !(decide (haversineDist c.centroid_lat c.centroid_lon
                e.centroid_lat e.centroid_lon < min_sep))) then result ++ [c]
        else result) acc)).Sublist (acc ++ l) := by
  intro l
  induction l with
  | nil => intro acc; simp
  | cons c l ih =>
      intro acc
      rw [List.foldl_cons]
      by_cases hc : acc.all (fun e =>
          !(decide (haversineDist c.centroid_lat c.centroid_lon
              e.centroid_lat e.centroid_lon < min_sep))) = true
      · rw [if_pos hc]
        have := ih (acc ++ [c])
        rw [List.append_assoc, List.singleton_append] at this
        exact this
      · rw [if_neg hc]
        exact (ih acc).trans (List.Sublist.append_left (List.sublist_cons_self c l) acc)

/-- Claim C8: the Label-Maker separation filter considers the area/radius
survivors in descending area order (the greedy result is an order-preserving
subselection of the area-sorted list) and keeps a cluster only when its
centroid is at haversine distance ≥ `min_separation_km` from every
previously kept centroid, so no two clusters of the output (of either
`_apply_separation_constraint` or the full `apply_geophysical_constraints`)
are closer than `min_separation_km`; the default separation is 1 200 km. -/
theorem C8_separation_constraint_invariant (clusters : List CloudCluster)
    (min_area_km2 min_radius_km min_separation_km : ℝ) :
    (applySeparationConstraint clusters min_separation_km).Pairwise
      (separatedBy min_separation_km) ∧
    (applySeparationConstraint clusters min_separation_km).Sublist
      (clusters.mergeSort (fun a b => decide (b.area_km2 ≤ a.area_km2))) ∧
    (applyGeophysicalConstraints clusters
      min_area_km2 min_radius_km min_separation_km).Pairwise
      (separatedBy min_separation_km) ∧
    Clustering.MIN_CENTROID_SEPARATION_KM = 1200 := by
  refine ⟨?_, ?_, ?_, rfl⟩
  · unfold applySeparationConstraint
    exact sepFold_pairwise min_separation_km _ [] List.Pairwise.nil
  · unfold applySeparationConstraint
    have := sepFold_sublist min_separation_km
      (clusters.mergeSort (fun a b => decide (b.area_km2 ≤ a.area_km2))) []
    rw [List.nil_append] at this
    exact this
  · unfold applyGeophysicalConstraints
    split
    · exact List.Pairwise.nil
    · dsimp only
      split
      · next hlen => exact pairwise_length_le_one hlen
      · unfold applySeparationConstraint
        exact sepFold_pairwise min_separation_km _ [] List.Pairwise.nil

/-! ### Tracker prediction (claim C10) -/

/-- Claim C10: `predict_future` is observation-only.  It reads `position`
and `velocity` from the filter state and extrapolates arithmetically,
assigning no attribute, so the Kalman state, `frames_since_update`,
`total_observations` and `history` are all unchanged and a second call with
the same arguments returns the identical prediction list — unlike
`predict`, which increments `frames_since_update` (and advances the
filter). -/
theorem C10_predict_future_observation_only {α : Type} (t : KalmanTrack α)
    (steps : ℕ) (time_interval_hours : ℝ) :
    (t.predictFuture steps time_interval_hours).1 = t ∧
    (t.predictFuture steps time_interval_hours).1.kf = t.kf ∧
    (t.predictFuture steps time_interval_hours).1.frames_since_update
      = t.frames_since_update ∧
    (t.predictFuture steps time_interval_hours).1.total_observations
      = t.total_observations ∧
    (t.predictFuture steps time_interval_hours).1.history = t.history ∧
    ((t.predictFuture steps time_interval_hours).1.predictFuture steps
        time_interval_hours).2 = (t.predictFuture steps time_interval_hours).2 ∧
    t.predict.1.frames_since_update = t.frames_since_update + 1 :=
  ⟨rfl, rfl, rfl, rfl, rfl, rfl, rfl⟩

/-! ### Lost-track eviction under cluster-free updates (claim C5) -/

lemma update_empty_tracks {α : Type} [Inhabited α] (st : TCCTracker α) (ts : String) :
    ((st.update [] ts).1).tracks
      = (st.tracks.map (fun p => (p.1, p.2.predict.1))).filter
          (fun p => p.2.isActive) := rfl

lemma predict_fsu {α : Type} (t : KalmanTrack α) :
    (t.predict.1).frames_since_update = t.frames_since_update + 1 := rfl

lemma update_empty_mem {α : Type} [Inhabited α] {st : TCCTracker α} {tid : ℕ}
    {t : KalmanTrack α} (ts : String) (h : (tid, t) ∈ st.tracks)
    (hk : t.frames_since_update + 1 ≤ TRACK_LOST_THRESHOLD) :
    (tid, t.predict.1) ∈ ((st.update [] ts).1).tracks := by
  rw [update_empty_tracks, List.mem_filter]
  refine ⟨List.mem_map.mpr ⟨(tid, t), h, rfl⟩, ?_⟩
  unfold KalmanTrack.isActive
  rw [predict_fsu]
  exact decide_eq_true hk

lemma update_empty_keys_nodup {α : Type} [Inhabited α] {st : TCCTracker α}
    (ts : String) (h : (st.tracks.map Prod.fst).Nodup) :
    ((((st.update [] ts).1).tracks).map Prod.fst).Nodup := by
  rw [update_empty_tracks]
  have h1 : (st.tracks.map (fun p => (p.1, p.2.predict.1))).map Prod.fst
      = st.tracks.map Prod.fst := by
    rw [List.map_map]
    rfl
  have h2 := (List.filter_sublist
    (l := st.tracks.map (fun p => (p.1, p.2.predict.1)))
    (p := fun p => p.2.isActive)).map Prod.fst
  exact h2.nodup (h1 ▸ h)

lemma keys_nodup_unique {α : Type} {l : List (ℕ × KalmanTrack α)}
    (h : (l.map Prod.fst).Nodup) {tid : ℕ} {t t' : KalmanTrack α}
    (h1 : (tid, t) ∈ l) (h2 : (tid, t') ∈ l) : t = t' := by
  induction l with
  | nil => cases h1
  | cons hd tl ih =>
      rw [List.map_cons, List.nodup_cons] at h
      rcases List.mem_cons.mp h1 with e1 | e1 <;>
        rcases List.mem_cons.mp h2 with e2 | e2
      · rw [← e2] at e1
        exact ((Prod.mk.injEq tid t tid t').mp e1).2
      · exfalso
        apply h.1
        have he : hd.1 = tid := by rw [← e1]
        rw [he]
        exact List.mem_map.mpr ⟨(tid, t'), e2, rfl⟩
      · exfalso
        apply h.1
        have he : hd.1 = tid := by rw [← e2]
        rw [he]
        exact List.mem_map.mpr ⟨(tid, t), e1, rfl⟩
      · exact ih h.2 e1 e2

lemma update_empty_not_mem {α : Type} [Inhabited α] {st : TCCTracker α}
    {tid : ℕ} {t : KalmanTrack α} (ts : String)
    (hnd : (st.tracks.map Prod.fst).Nodup) (h : (tid, t) ∈ st.tracks)
    (hk : TRACK_LOST_THRESHOLD < t.frames_since_update + 1) :
    ∀ t', (tid, t') ∉ ((st.update [] ts).1).tracks := by
  intro t' hmemF
  rw [update_empty_tracks, List.mem_filter] at hmemF
  obtain ⟨hmm, hact⟩ := hmemF
  dsimp only at hact
  obtain ⟨⟨tid0, t0⟩, ht0, heq⟩ := List.mem_map.mp hmm
  dsimp only at heq
  rw [Prod.mk.injEq] at heq
  obtain ⟨rfl, rfl⟩ := heq
  have ht : t0 = t := keys_nodup_unique hnd ht0 h
  subst ht
  unfold KalmanTrack.isActive at hact
  rw [predict_fsu] at hact
  have hle := of_decide_eq_true hact
  omega

/-- Claim C5, amended: after a track last received an observation (its
`frames_since_update` is 0), the first, second and third cluster-free
`update` calls all keep the track — `frames_since_update` rises to 1, 2, 3,
still `≤ track_lost_threshold = 3` — and it is the fourth cluster-free
update (counter 4 > 3) that removes the track from the tracker's track set,
not the third as claimed. -/
theorem C5_lost_track_evicted_on_fourth_empty_update {α : Type} [Inhabited α]
    (st : TCCTracker α) (tid : ℕ) (t : KalmanTrack α) (ts1 ts2 ts3 ts4 : String)
    (hmem : (tid, t) ∈ st.tracks) (hfsu : t.frames_since_update = 0)
    (hnd : (st.tracks.map Prod.fst).Nodup) :
    ((tid, t.predict.1) ∈ ((st.update [] ts1).1).tracks ∧
      (t.predict.1).frames_since_update = 1) ∧
    ((tid, t.predict.1.predict.1) ∈
        (((st.update [] ts1).1.update [] ts2).1).tracks ∧
      (t.predict.1.predict.1).frames_since_update = 2) ∧
    ((tid, t.predict.1.predict.1.predict.1) ∈
        ((((st.update [] ts1).1.update [] ts2).1.update [] ts3).1).tracks ∧
      (t.predict.1.predict.1.predict.1).frames_since_update = 3) ∧
    (∀ t4, (tid, t4) ∉
      (((((st.update [] ts1).1.update [] ts2).1.update [] ts3).1.update
          [] ts4).1).tracks) := by
  have hf1 : (t.predict.1).frames_since_update = 1 := by
    rw [predict_fsu, hfsu]
  have hf2 : (t.predict.1.predict.1).frames_since_update = 2 := by
    rw [predict_fsu, hf1]
  have hf3 : (t.predict.1.predict.1.predict.1).frames_since_update = 3 := by
    rw [predict_fsu, hf2]
  have hT : TRACK_LOST_THRESHOLD = 3 := rfl
  have m1 := update_empty_mem ts1 hmem (by rw [hfsu, hT]; omega)
  have n1 := update_empty_keys_nodup ts1 hnd
  have m2 := update_empty_mem ts2 m1 (by rw [hf1, hT]; omega)
  have n2 := update_empty_keys_nodup ts2 n1
  have m3 := update_empty_mem ts3 m2 (by rw [hf2, hT])
  have n3 := update_empty_keys_nodup ts3 n2
  refine ⟨⟨m1, hf1⟩, ⟨m2, hf2⟩, ⟨m3, hf3⟩, ?_⟩
  exact update_empty_not_mem ts4 n3 m3 (by rw [hf3, hT]; omega)

/-- Witness for C5 at a concrete tracker holding one freshly observed
track. -/
theorem C5_lost_track_witness :
    ((1, (KalmanTrack.create 1 0 0 : KalmanTrack Unit).predict.1) ∈
        (((⟨[(1, KalmanTrack.create 1 0 0)], 2, 0, MAX_TRACK_DISTANCE_KM⟩ :
          TCCTracker Unit).update [] "a").1).tracks ∧
      ((KalmanTrack.create 1 0 0 : KalmanTrack Unit).predict.1).frames_since_update = 1) ∧
    ((1, (KalmanTrack.create 1 0 0 : KalmanTrack Unit).predict.1.predict.1) ∈
        ((((⟨[(1, KalmanTrack.create 1 0 0)], 2, 0, MAX_TRACK_DISTANCE_KM⟩ :
          TCCTracker Unit).update [] "a").1.update [] "b").1).tracks ∧
      ((KalmanTrack.create 1 0 0 : KalmanTrack Unit).predict.1.predict.1).frames_since_update = 2) ∧
    ((1, (KalmanTrack.create 1 0 0 : KalmanTrack Unit).predict.1.predict.1.predict.1) ∈
        (((((⟨[(1, KalmanTrack.create 1 0 0)], 2, 0, MAX_TRACK_DISTANCE_KM⟩ :
          TCCTracker Unit).update [] "a").1.update [] "b").1.update [] "c").1).tracks ∧
      ((KalmanTrack.create 1 0 0 : KalmanTrack Unit).predict.1.predict.1.predict.1).frames_since_update = 3) ∧
    (∀ t4, (1, t4) ∉
      ((((((⟨[(1, KalmanTrack.create 1 0 0)], 2, 0, MAX_TRACK_DISTANCE_KM⟩ :
          TCCTracker Unit).update [] "a").1.update [] "b").1.update [] "c").1.update
          [] "d").1).tracks) :=
  C5_lost_track_evicted_on_fourth_empty_update
    (⟨[(1, KalmanTrack.create 1 0 0)], 2, 0, MAX_TRACK_DISTANCE_KM⟩ : TCCTracker Unit)
    1 (KalmanTrack.create 1 0 0) "a" "b" "c" "d"
    (List.mem_singleton.mpr rfl) rfl (by simp)

/-- Claim C5, counterexample: with one track observed in the current frame,
three cluster-free updates leave the track present (its
`frames_since_update` is 3, not above the threshold), contradicting the
claim that the third empty update evicts it. -/
theorem C5_counterexample :
    (((((⟨[(1, KalmanTrack.create 1 0 0)], 2, 0, MAX_TRACK_DISTANCE_KM⟩ :
        TCCTracker Unit).update [] "a").1.update [] "b").1.update [] "c").1).tracks
      = [(1, (KalmanTrack.create 1 0 0 : KalmanTrack Unit).predict.1.predict.1.predict.1)] ∧
    ((KalmanTrack.create 1 0 0 : KalmanTrack Unit).predict.1.predict.1.predict.1).frames_since_update
      = 3 :=
  ⟨rfl, rfl⟩

/-! ### Assignment distance gate (claim C4) -/

/-- Claim C4, amended: a cluster-to-track pair produced by the Hungarian
algorithm is accepted exactly when its haversine distance is strictly less
than `max_distance_km` (the filter is `cost_matrix[i, j] < self.max_distance`);
a pair at exactly 200 km is therefore rejected, not accepted. -/
theorem C4_assignment_gate_is_strict {α : Type} [Inhabited α] (st : TCCTracker α)
    (clusters : List (ClusterDict α)) (i tid : ℕ)
    (hne : st.tracks.isEmpty = false ∧ clusters.isEmpty = false) :
    (i, tid) ∈ st.assignClustersToTracks clusters ↔
      ∃ j, (i, j) ∈ linearSumAssignment clusters.length st.tracks.length
            (st.costMatrix clusters) ∧
          st.costMatrix clusters i j < st.max_distance ∧
          (st.tracks.map Prod.fst).getD j 0 = tid := by
  unfold TCCTracker.assignClustersToTracks
  rw [if_neg (by rw [hne.1, hne.2]; simp)]
  dsimp only
  rw [List.mem_filterMap]
  constructor
  · rintro ⟨⟨a, b⟩, hmem, hf⟩
    dsimp only at hf
    by_cases hab : st.costMatrix clusters a b < st.max_distance
    · rw [if_pos hab] at hf
      rw [Option.some.injEq, Prod.mk.injEq] at hf
      obtain ⟨rfl, rfl⟩ := hf
      exact ⟨b, hmem, hab, rfl⟩
    · rw [if_neg hab] at hf
      cases hf
  · rintro ⟨j, hmem, hlt, hgd⟩
    refine ⟨(i, j), hmem, ?_⟩
    dsimp only
    rw [if_pos hlt, hgd]

/-- Witness for C4 at a concrete one-track, one-cluster state. -/
theorem C4_assignment_gate_witness :
    (0, 1) ∈ (⟨[(1, KalmanTrack.create 1 0 0)], 2, 0, MAX_TRACK_DISTANCE_KM⟩ :
        TCCTracker Unit).assignClustersToTracks
          [⟨0, 0, none, none, none, none, ()⟩] ↔
      ∃ j, (0, j) ∈ linearSumAssignment
            [(⟨0, 0, none, none, none, none, ()⟩ : ClusterDict Unit)].length
            [(1, (KalmanTrack.create 1 0 0 : KalmanTrack Unit))].length
            ((⟨[(1, KalmanTrack.create 1 0 0)], 2, 0, MAX_TRACK_DISTANCE_KM⟩ :
              TCCTracker Unit).costMatrix [⟨0, 0, none, none, none, none, ()⟩]) ∧
          (⟨[(1, KalmanTrack.create 1 0 0)], 2, 0, MAX_TRACK_DISTANCE_KM⟩ :
              TCCTracker Unit).costMatrix [⟨0, 0, none, none, none, none, ()⟩] 0 j <
            (⟨[(1, KalmanTrack.create 1 0 0)], 2, 0, MAX_TRACK_DISTANCE_KM⟩ :
              TCCTracker Unit).max_distance ∧
          ([(1, (KalmanTrack.create 1 0 0 : KalmanTrack Unit))].map Prod.fst).getD j 0
            = 1 :=
  C4_assignment_gate_is_strict
    (⟨[(1, KalmanTrack.create 1 0 0)], 2, 0, MAX_TRACK_DISTANCE_KM⟩ : TCCTracker Unit)
    [⟨0, 0, none, none, none, none, ()⟩] 0 1 ⟨rfl, rfl⟩

/-- Claim C4, counterexample: one track at (0°, 0°) and one cluster whose
centroid is at haversine distance exactly 200 km (longitude
`36000 / (6371 π)` degrees on the equator).  The claim says a pair at
exactly 200 km is accepted; the code's strict `<` rejects it, so the
assignment comes back empty. -/
theorem C4_counterexample :
    haversineDist 0 (36000 / (6371 * Real.pi)) 0 0 = 200 ∧
    MAX_TRACK_DISTANCE_KM = 200 ∧
    (⟨[(1, KalmanTrack.create 1 0 0)], 2, 0, MAX_TRACK_DISTANCE_KM⟩ :
        TCCTracker Unit).assignClustersToTracks
      [⟨0, 36000 / (6371 * Real.pi), none, none, none, none, ()⟩] = [] := by
  refine ⟨haversineDist_L0, rfl, ?_⟩
  have hcost : (⟨[(1, KalmanTrack.create 1 0 0)], 2, 0, MAX_TRACK_DISTANCE_KM⟩ :
      TCCTracker Unit).costMatrix
        [⟨0, 36000 / (6371 * Real.pi), none, none, none, none, ()⟩] 0 0 = 200 := by
    unfold TCCTracker.costMatrix KalmanTrack.position KalmanTrack.create
      KalmanState.start
    dsimp only [List.getD_cons_zero]
    rw [show (![(0:ℝ), 0, 0, 0]) 0 = 0 from rfl,
      show (![(0:ℝ), 0, 0, 0]) 1 = 0 from rfl]
    exact haversineDist_L0
  unfold TCCTracker.assignClustersToTracks
  rw [if_neg (by simp)]
  dsimp only
  have hpairs : linearSumAssignment 1 1
      ((⟨[(1, KalmanTrack.create 1 0 0)], 2, 0, MAX_TRACK_DISTANCE_KM⟩ :
        TCCTracker Unit).costMatrix
          [⟨0, 36000 / (6371 * Real.pi), none, none, none, none, ()⟩]) = [(0, 0)] := rfl
  rw [show ([⟨0, 36000 / (6371 * Real.pi), none, none, none, none, ()⟩] :
      List (ClusterDict Unit)).length = 1 from rfl]
  rw [show ([(1, (KalmanTrack.create 1 0 0 : KalmanTrack Unit))]).length = 1 from rfl]
  rw [hpairs, List.filterMap_cons]
  dsimp only
  rw [hcost, show MAX_TRACK_DISTANCE_KM = 200 from rfl]
  rw [if_neg (lt_irrefl (200 : ℝ))]
  rfl

/-! ### Update mutates the caller dictionaries (claim C9) -/

lemma getD_set_self {β : Type} [Inhabited β] (l : List β) (i : ℕ)
    (h : i < l.length) (x : β) : (l.set i x).getD i default = x := by
  rw [List.getD_eq_getElem?_getD, List.getElem?_set_self (by simpa using h)]
  rfl

lemma getD_set_ne {β : Type} [Inhabited β] (l : List β) {i j : ℕ}
    (h : i ≠ j) (x : β) : (l.set i x).getD j default = l.getD j default := by
  rw [List.getD_eq_getElem?_getD, List.getElem?_set_ne h,
    ← List.getD_eq_getElem?_getD]

lemma matchings_spec :
    ∀ (rows cols : List ℕ), rows.Nodup →
      ∀ M ∈ matchings rows cols,
        (∀ p ∈ M, p.1 ∈ rows ∧ p.2 ∈ cols) ∧ (M.map Prod.fst).Nodup := by
  intro rows
  induction rows with
  | nil =>
      intro cols _ M hM
      simp only [matchings, List.mem_singleton] at hM
      subst hM
      simp
  | cons r rs ih =>
      intro cols hnd M hM
      rcases cols with _ | ⟨c0, cs⟩
      · simp only [matchings, List.mem_singleton] at hM
        subst hM
        simp
      · rw [List.nodup_cons] at hnd
        simp only [matchings] at hM
        rw [List.mem_append] at hM
        rcases hM with hM | hM
        · rw [List.mem_flatten] at hM
          obtain ⟨L, hL, hML⟩ := hM
          rw [List.mem_map] at hL
          obtain ⟨c, hc, rfl⟩ := hL
          rw [List.mem_map] at hML
          obtain ⟨M2, hM2, rfl⟩ := hML
          obtain ⟨hb, hnodup⟩ := ih ((c0 :: cs).erase c) hnd.2 M2 hM2
          constructor
          · intro p hp
            rcases List.mem_cons.mp hp with rfl | hp
            · exact ⟨List.mem_cons_self r rs, hc⟩
            · obtain ⟨h1, h2⟩ := hb p hp
              exact ⟨List.mem_cons_of_mem r h1, (c0 :: cs).erase_subset c h2⟩
          · rw [List.map_cons, List.nodup_cons]
            refine ⟨?_, hnodup⟩
            intro hmem
            rw [List.mem_map] at hmem
            obtain ⟨p, hp, hfst⟩ := hmem
            have h1 := (hb p hp).1
            rw [hfst] at h1
            exact hnd.1 h1
        · split at hM
          · obtain ⟨hb, hnodup⟩ := ih (c0 :: cs) hnd.2 M hM
            exact ⟨fun p hp => ⟨List.mem_cons_of_mem r (hb p hp).1, (hb p hp).2⟩,
              hnodup⟩
          · cases hM

lemma selectMinBy_mem (f : List (ℕ × ℕ) → ℝ) :
    ∀ (l : List (List (ℕ × ℕ))) (M : List (ℕ × ℕ)),
      selectMinBy f l = some M → M ∈ l := by
  intro l
  induction l with
  | nil => intro M h; cases h
  | cons a l ih =>
      intro M h
      rcases l with _ | ⟨b, l2⟩
      · simp only [selectMinBy, Option.some.injEq] at h
        subst h
        exact List.mem_singleton.mpr rfl
      · rcases hsel : selectMinBy f (b :: l2) with _ | B
        · simp only [selectMinBy, hsel, Option.some.injEq] at h
          subst h
          exact List.mem_cons_self a _
        · simp only [selectMinBy, hsel] at h
          split at h
          · rw [Option.some.injEq] at h
            subst h
            exact List.mem_cons_self a _
          · rw [Option.some.injEq] at h
            subst h
            exact List.mem_cons_of_mem a (ih B hsel)

lemma linearSumAssignment_spec (n m : ℕ) (cost : ℕ → ℕ → ℝ) :
    (∀ p ∈ linearSumAssignment n m cost, p.1 < n ∧ p.2 < m) ∧
    ((linearSumAssignment n m cost).map Prod.fst).Nodup := by
  unfold linearSumAssignment
  rcases hsel : selectMinBy (assignmentCost cost)
      (matchings (List.range n) (List.range m)) with _ | M
  · simp
  · simp only [Option.getD_some]
    have hM := selectMinBy_mem _ _ _ hsel
    obtain ⟨hb, hnd⟩ := matchings_spec (List.range n) (List.range m)
      (List.nodup_range n) M hM
    refine ⟨fun p hp => ⟨List.mem_range.mp (hb p hp).1,
      List.mem_range.mp (hb p hp).2⟩, hnd⟩

lemma filterMap_fst_sublist {γ δ : Type} (f : ℕ × γ → Option (ℕ × δ))
    (Hf : ∀ p q, f p = some q → q.1 = p.1) :
    ∀ l : List (ℕ × γ), ((l.filterMap f).map Prod.fst).Sublist (l.map Prod.fst) := by
  intro l
  induction l with
  | nil => simp
  | cons hd tl ih =>
      rw [List.filterMap_cons]
      rcases hf : f hd with _ | q
      · rw [List.map_cons]
        exact ih.cons hd.1
      · rw [List.map_cons, List.map_cons, Hf hd q hf]
        exact ih.cons₂ hd.1

lemma assign_spec {α : Type} [Inhabited α] (st : TCCTracker α)
    (clusters : List (ClusterDict α)) :
    (∀ p ∈ st.assignClustersToTracks clusters, p.1 < clusters.length) ∧
    ((st.assignClustersToTracks clusters).map Prod.fst).Nodup := by
  unfold TCCTracker.assignClustersToTracks
  split
  · simp
  · dsimp only
    have Hf : ∀ (p q : ℕ × ℕ),
        (if st.costMatrix clusters p.1 p.2 < st.max_distance then
          some (p.1, (st.tracks.map Prod.fst).getD p.2 0) else none) = some q →
        q.1 = p.1 := by
      intro p q hpq
      split at hpq
      · rw [Option.some.injEq] at hpq
        rw [← hpq]
      · cases hpq
    constructor
    · intro p hp
      rw [List.mem_filterMap] at hp
      obtain ⟨q, hq, hfq⟩ := hp
      have h1 := (linearSumAssignment_spec clusters.length st.tracks.length
        (st.costMatrix clusters)).1 q hq
      have h2 := Hf q p hfq
      rw [h2]
      exact h1.1
    · exact (filterMap_fst_sublist _ Hf _).nodup
        (linearSumAssignment_spec clusters.length st.tracks.length
          (st.costMatrix clusters)).2

lemma matchStep_shape {α : Type} [Inhabited α] (ts : String)
    (acc : TCCTracker α × List (ClusterDict α) × List ℕ) (p : ℕ × ℕ) :
    ∃ tid k,
      (TCCTracker.matchStep ts acc p).2.1 = acc.2.1.set p.1
        { acc.2.1.getD p.1 default with
            track_id := some tid, timestamp := some ts,
            is_predicted := some false, track_length := some k } ∧
      (TCCTracker.matchStep ts acc p).2.2 = acc.2.2 ++ [p.1] :=
  ⟨p.2, _, rfl, rfl⟩

lemma newStep_shape {α : Type} [Inhabited α] (ts : String)
    (acc : TCCTracker α × List (ClusterDict α) × List ℕ) (i : ℕ) :
    ∃ tid k,
      (TCCTracker.newStep ts acc i).2.1 = acc.2.1.set i
        { acc.2.1.getD i default with
            track_id := some tid, timestamp := some ts,
            is_predicted := some false, track_length := some k } ∧
      (TCCTracker.newStep ts acc i).2.2 = acc.2.2 ++ [i] :=
  ⟨acc.1.next_track_id, 1, rfl, rfl⟩

lemma foldl_mutate_invariant {α : Type} [Inhabited α] {ι : Type} (ts : String)
    (step : TCCTracker α × List (ClusterDict α) × List ℕ → ι →
      TCCTracker α × List (ClusterDict α) × List ℕ)
    (idx : ι → ℕ)
    (hstep : ∀ acc x, ∃ tid k,
      (step acc x).2.1 = acc.2.1.set (idx x)
        { acc.2.1.getD (idx x) default with
            track_id := some tid, timestamp := some ts,
            is_predicted := some false, track_length := some k } ∧
      (step acc x).2.2 = acc.2.2 ++ [idx x]) :
    ∀ (L : List ι) (acc : TCCTracker α × List (ClusterDict α) × List ℕ),
      (L.map idx).Nodup →
      (L.foldl step acc).2.1.length = acc.2.1.length ∧
      (L.foldl step acc).2.2 = acc.2.2 ++ L.map idx ∧
      (∀ i, i ∉ L.map idx →
        (L.foldl step acc).2.1.getD i default = acc.2.1.getD i default) ∧
      (∀ x ∈ L, idx x < acc.2.1.length → ∃ tid k,
        (L.foldl step acc).2.1.getD (idx x) default =
          { acc.2.1.getD (idx x) default with
              track_id := some tid, timestamp := some ts,
              is_predicted := some false, track_length := some k }) := by
  intro L
  induction L with
  | nil =>
      intro acc _
      simp
  | cons x L ih =>
      intro acc hnd
      rw [List.map_cons, List.nodup_cons] at hnd
      obtain ⟨hx, hnd⟩ := hnd
      obtain ⟨tid0, k0, hset, hout⟩ := hstep acc x
      rw [List.foldl_cons]
      obtain ⟨ihlen, ihout, ihun, ihmut⟩ := ih (step acc x) hnd
      have hlen1 : (step acc x).2.1.length = acc.2.1.length := by
        rw [hset, List.length_set]
      refine ⟨?_, ?_, ?_, ?_⟩
      · rw [ihlen, hlen1]
      · rw [ihout, hout, List.append_assoc]
        rfl
      · intro i hi
        rw [List.map_cons, List.mem_cons] at hi
        push_neg at hi
        rw [ihun i hi.2, hset, getD_set_ne _ (fun he => hi.1 he.symm) _]
      · intro y hy hbound
        rcases List.mem_cons.mp hy with rfl | hy
        · rw [ihun (idx y) hx, hset, getD_set_self _ _ hbound _]
          exact ⟨tid0, k0, rfl⟩
        · have hb2 : idx y < (step acc x).2.1.length := by
            rw [hlen1]
            exact hbound
          obtain ⟨tid1, k1, hmut⟩ := ihmut y hy hb2
          have hne : idx x ≠ idx y := fun he => hx (he ▸ List.mem_map_of_mem idx hy)
          rw [hmut, hset, getD_set_ne _ hne _]
          exact ⟨tid1, k1, rfl⟩

lemma mem_fst_iff_any (A : List (ℕ × ℕ)) (i : ℕ) :
    i ∈ A.map Prod.fst ↔ A.any (fun p => p.1 = i) = true := by
  rw [List.mem_map, List.any_eq_true]
  constructor
  · rintro ⟨p, hp, he⟩
    exact ⟨p, hp, decide_eq_true he⟩
  · rintro ⟨p, hp, he⟩
    exact ⟨p, hp, of_decide_eq_true he⟩

/-- Claim C9: `TCCTracker.update` mutates its input.  For every non-empty
cluster list, the store handed back with the result has the same length as
the caller's list; the returned list consists of positions into the
caller's store (the same dictionary objects, not copies), covering every
cluster exactly once; and the dictionary at every position now carries the
four inserted keys `track_id`, `timestamp`, `is_predicted`, `track_length`
with everything else (centroids, payload) unchanged. -/
theorem C9_update_mutates_clusters_in_place {α : Type} [Inhabited α]
    (st : TCCTracker α) (clusters : List (ClusterDict α)) (ts : String)
    (hne : clusters ≠ []) :
    ((st.update clusters ts).2.1).length = clusters.length ∧
    (∀ i ∈ (st.update clusters ts).2.2, i < clusters.length) ∧
    (∀ i, i < clusters.length → i ∈ (st.update clusters ts).2.2) ∧
    ((st.update clusters ts).2.2).Nodup ∧
    (∀ i, i < clusters.length → ∃ tid k,
      ((st.update clusters ts).2.1).getD i default =
        { clusters.getD i default with
            track_id := some tid, timestamp := some ts,
            is_predicted := some false, track_length := some k }) := by
  unfold TCCTracker.update
  rw [if_neg (by simp [hne])]
  dsimp only
  set st1 : TCCTracker α :=
    { st with frame_count := st.frame_count + 1,
              tracks := st.tracks.map
                (fun (p : ℕ × KalmanTrack α) => (p.1, p.2.predict.1)) } with hst1
  set A := st1.assignClustersToTracks clusters with hA
  obtain ⟨hAb, hAnd⟩ := assign_spec st1 clusters
  rw [← hA] at hAb hAnd
  set U := (List.range clusters.length).filter
    (fun i => ¬ A.any (fun p => p.1 = i)) with hU
  have hUspec : ∀ i, i ∈ U ↔ i < clusters.length ∧ i ∉ A.map Prod.fst := by
    intro i
    rw [hU, List.mem_filter, List.mem_range]
    constructor
    · rintro ⟨hlt, hdec⟩
      refine ⟨hlt, ?_⟩
      intro hmap
      exact (of_decide_eq_true hdec) ((mem_fst_iff_any A i).mp hmap)
    · rintro ⟨hlt, hnm⟩
      refine ⟨hlt, decide_eq_true ?_⟩
      intro hany
      exact hnm ((mem_fst_iff_any A i).mpr hany)
  have hUnd : U.Nodup := (List.nodup_range clusters.length).filter _
  obtain ⟨len1, out1, un1, mut1⟩ := foldl_mutate_invariant ts
    (TCCTracker.matchStep ts) Prod.fst (matchStep_shape ts) A
    (st1, clusters, ([] : List ℕ)) hAnd
  set F1 := A.foldl (TCCTracker.matchStep ts) (st1, clusters, ([] : List ℕ))
    with hF1
  have hUnd2 : (U.map id).Nodup := by
    rw [List.map_id]
    exact hUnd
  obtain ⟨len2, out2, un2, mut2⟩ := foldl_mutate_invariant ts
    (TCCTracker.newStep ts) id (newStep_shape ts) U F1 hUnd2
  rw [List.map_id] at out2 un2
  dsimp only at len1 out1 un1 mut1 len2 out2 un2 mut2
  have hlen : (U.foldl (TCCTracker.newStep ts) F1).2.1.length = clusters.length := by
    rw [len2, len1]
  have hout : (U.foldl (TCCTracker.newStep ts) F1).2.2 = A.map Prod.fst ++ U := by
    rw [out2, out1, List.nil_append]
  refine ⟨hlen, ?_, ?_, ?_, ?_⟩
  · intro i hi
    rw [hout, List.mem_append] at hi
    rcases hi with hi | hi
    · rw [List.mem_map] at hi
      obtain ⟨p, hp, rfl⟩ := hi
      exact hAb p hp
    · exact ((hUspec i).mp hi).1
  · intro i hi
    rw [hout, List.mem_append]
    by_cases hmem : i ∈ A.map Prod.fst
    · exact Or.inl hmem
    · exact Or.inr ((hUspec i).mpr ⟨hi, hmem⟩)
  · rw [hout]
    rw [List.nodup_append]
    refine ⟨hAnd, hUnd, ?_⟩
    intro i hiA hiU
    exact ((hUspec i).mp hiU).2 hiA
  · intro i hi
    by_cases hmem : i ∈ A.map Prod.fst
    · rw [List.mem_map] at hmem
      obtain ⟨p, hp, rfl⟩ := hmem
      have hb : p.1 < (st1, clusters, ([] : List ℕ)).2.1.length := hAb p hp
      obtain ⟨tid, k, hm⟩ := mut1 p hp hb
      have hnotU : p.1 ∉ U := by
        intro hU2
        exact ((hUspec p.1).mp hU2).2 (List.mem_map_of_mem Prod.fst hp)
      rw [un2 p.1 hnotU, hm]
      exact ⟨tid, k, rfl⟩
    · have hiU : i ∈ U := (hUspec i).mpr ⟨hi, hmem⟩
      have hb : i < F1.2.1.length := by
        rw [len1]
        exact hi
      obtain ⟨tid, k, hm⟩ := mut2 i hiU hb
      rw [id_eq] at hm
      rw [hm, un1 i hmem]
      exact ⟨tid, k, rfl⟩

/-- Witness for C9: one cluster fed to an empty tracker. -/
theorem C9_update_mutates_witness :
    (((⟨[], 1, 0, MAX_TRACK_DISTANCE_KM⟩ : TCCTracker Unit).update
        [⟨10, 70, none, none, none, none, ()⟩] "f").2.1).length
      = [(⟨10, 70, none, none, none, none, ()⟩ : ClusterDict Unit)].length ∧
    (∀ i ∈ ((⟨[], 1, 0, MAX_TRACK_DISTANCE_KM⟩ : TCCTracker Unit).update
        [⟨10, 70, none, none, none, none, ()⟩] "f").2.2,
      i < [(⟨10, 70, none, none, none, none, ()⟩ : ClusterDict Unit)].length) ∧
    (∀ i, i < [(⟨10, 70, none, none, none, none, ()⟩ : ClusterDict Unit)].length →
      i ∈ ((⟨[], 1, 0, MAX_TRACK_DISTANCE_KM⟩ : TCCTracker Unit).update
        [⟨10, 70, none, none, none, none, ()⟩] "f").2.2) ∧
    (((⟨[], 1, 0, MAX_TRACK_DISTANCE_KM⟩ : TCCTracker Unit).update
        [⟨10, 70, none, none, none, none, ()⟩] "f").2.2).Nodup ∧
    (∀ i, i < [(⟨10, 70, none, none, none, none, ()⟩ : ClusterDict Unit)].length →
      ∃ tid k,
        (((⟨[], 1, 0, MAX_TRACK_DISTANCE_KM⟩ : TCCTracker Unit).update
            [⟨10, 70, none, none, none, none, ()⟩] "f").2.1).getD i default =
          { ([(⟨10, 70, none, none, none, none, ()⟩ : ClusterDict Unit)]).getD i
              default with
              track_id := some tid, timestamp := some "f",
              is_predicted := some false, track_length := some k }) :=
  C9_update_mutates_clusters_in_place
    (⟨[], 1, 0, MAX_TRACK_DISTANCE_KM⟩ : TCCTracker Unit)
    [⟨10, 70, none, none, none, none, ()⟩] "f" (by simp)

end CloudSense
